import Mathlib

/-!
Verification of the go.uuid repository: a shallow embedding of the UUID
codec (codec.go) and generator (generator.go) into Lean, with theorems
settling the specification's claims.

Byte strings and UUID values are modelled as `List Nat`, each element a
byte value `< 256`.  Go's fixed 16-byte array `UUID` is a 16-element list;
mutation of the receiver is modelled by returning the new list.
The file `uuid.go` (identifier primitives) is not part of the provided
sources; its definitions are modelled from the specification and marked so.
-/

namespace GoUuid

/-- Modelled from the spec: `Size`, the byte length of an Identifier
(always exactly 16 bytes). -/
def Size : Nat := 16

/-- Modelled from the spec: `Nil`, the distinguished all-zero 16-byte value. -/
def NilUUID : List Nat := List.replicate 16 0

/-- Modelled from the spec §4.1: writing version `v` clears the high 4 bits
of byte index 6, then ORs in `v <<< 4` (`SetVersion` of the absent uuid.go). -/
def setVersion (u : List Nat) (v : Nat) : List Nat :=
  u.set 6 ((u.getD 6 0 &&& 0x0f) ||| (v <<< 4))

/-- Modelled from the spec §4.1: reading the version masks and shifts back
the high nibble of byte 6 (`Version` of the absent uuid.go). -/
def version (u : List Nat) : Nat := u.getD 6 0 >>> 4

/-- The four variant families of §4.1. -/
inductive Variant where
  | NCS | RFC4122 | Microsoft | Future
deriving DecidableEq

/-- Modelled from the spec §4.1: writing the variant sets the leading bits of
byte index 8 (`SetVariant` of the absent uuid.go): NCS clears bit 7;
RFC4122 writes `10` over the top two bits; Microsoft writes `110`;
Future writes `111` over the top three bits. -/
def setVariant (u : List Nat) (v : Variant) : List Nat :=
  match v with
  | .NCS       => u.set 8 (u.getD 8 0 &&& 0x7f)
  | .RFC4122   => u.set 8 ((u.getD 8 0 &&& 0x3f) ||| 0x80)
  | .Microsoft => u.set 8 ((u.getD 8 0 &&& 0x1f) ||| 0xc0)
  | .Future    => u.set 8 ((u.getD 8 0 &&& 0x1f) ||| 0xe0)

/-- Modelled from the spec §4.1: reading the variant inspects the leading
bits of byte 8 in priority order 111 → 110 → 10 → else NCS
(`Variant` of the absent uuid.go). -/
def variant (u : List Nat) : Variant :=
  let b := u.getD 8 0
  if b >>> 5 = 7 then .Future
  else if b >>> 5 = 6 then .Microsoft
  else if b >>> 6 = 2 then .RFC4122
  else .NCS

/-- Modelled from the spec §4.5: hex groups of the canonical form,
8-4-4-4-12 hex digits (`byteGroups` of the absent uuid.go). -/
def byteGroups : List Nat := [8, 4, 4, 4, 12]

/-- Modelled from the spec §4.5: the literal 9-byte prefix `urn:uuid:`
(`urnPrefix` of the absent uuid.go), as ASCII byte values. -/
def urnPrefix : List Nat := [117, 114, 110, 58, 117, 117, 105, 100, 58]

/-- Lower-case hex digit character (byte value) for a nibble. -/
def hexDigitChar (n : Nat) : Nat := if n < 10 then 48 + n else 87 + n

/-- Two lower-case hex characters encoding one byte. -/
def byteToHex (b : Nat) : List Nat := [hexDigitChar (b / 16), hexDigitChar (b % 16)]

/-- Hex encoding of a byte list, two characters per byte. -/
def hexList : List Nat → List Nat
  | [] => []
  | b :: bs => byteToHex b ++ hexList bs

/-- Modelled from the spec §4.6: `String`/`MarshalText` of the absent
uuid.go — always the canonical lower-case hyphenated 36-character form
(`-` is ASCII 45). -/
def uuidString (u : List Nat) : List Nat :=
  hexList (u.take 4) ++ (45 :: (hexList ((u.drop 4).take 2)
    ++ (45 :: (hexList ((u.drop 6).take 2) ++ (45 :: (hexList ((u.drop 8).take 2)
    ++ (45 :: hexList (u.drop 10))))))))

/-- `MarshalText`: the text encoding is the same as returned by `String`. -/
def marshalText (u : List Nat) : List Nat := uuidString u

/-- encoding/hex's `fromHexChar`: value of one hex character, or failure. -/
def fromHexChar (c : Nat) : Option Nat :=
  if 48 ≤ c ∧ c ≤ 57 then some (c - 48)
  else if 97 ≤ c ∧ c ≤ 102 then some (c - 97 + 10)
  else if 65 ≤ c ∧ c ≤ 70 then some (c - 65 + 10)
  else none

/-- encoding/hex's `Decode`: decodes hex pairs into bytes, writing each
decoded byte as it goes; returns the bytes written so far and whether the
whole input decoded (an odd trailing character or a non-hex character stops
it with an error, keeping the prefix already written). -/
def hexDecodeCore : List Nat → List Nat × Bool
  | [] => ([], true)
  | [_] => ([], false)
  | c1 :: c2 :: rest =>
    match fromHexChar c1, fromHexChar c2 with
    | some a, some b =>
      let r := hexDecodeCore rest
      ((a * 16 + b) :: r.1, r.2)
    | _, _ => ([], false)

/-- The group loop of `decodeCanonical` (codec.go): for each hex group,
skip the separating dash (for every group after the first), hex-decode the
group into the next `g / 2` receiver bytes; on a hex error the bytes
already decoded stay written and the rest of the receiver keeps its old
content. `uRest` is the not-yet-overwritten tail of the receiver. -/
def decodeGroups : List Nat → List Nat → List Nat → Bool → List Nat × Bool
  | [], _, uRest, _ => (uRest, true)
  | g :: gs, t, uRest, first =>
    let t1 := if first then t else t.drop 1
    let d := hexDecodeCore (t1.take g)
    if d.2 then
      let r := decodeGroups gs (t1.drop g) (uRest.drop (g / 2)) false
      (d.1 ++ r.1, r.2)
    else
      (d.1 ++ uRest.drop d.1.length, false)

/-- `decodeCanonical` (codec.go): characters at offsets 8, 13, 18, 23 must
be `-` (ASCII 45), then the five hex groups are decoded into the receiver
in place.  Returns the new receiver bytes and success. -/
def decodeCanonical (u t : List Nat) : List Nat × Bool :=
  if t.getD 8 0 = 45 ∧ t.getD 13 0 = 45 ∧ t.getD 18 0 = 45 ∧ t.getD 23 0 = 45 then
    decodeGroups byteGroups t u true
  else (u, false)

/-- `decodeHashLike` (codec.go): 32 hex digits decoded straight into the
receiver. -/
def decodeHashLike (u t : List Nat) : List Nat × Bool :=
  let d := hexDecodeCore t
  (d.1 ++ u.drop d.1.length, d.2)

/-- `decodePlain` (codec.go): dispatch on length 32 (hash-like) or
36 (canonical); anything else is an error. -/
def decodePlain (u t : List Nat) : List Nat × Bool :=
  if t.length = 32 then decodeHashLike u t
  else if t.length = 36 then decodeCanonical u t
  else (u, false)

/-- `decodeBraced` (codec.go): first and last characters must be `{` and
`}` (ASCII 123/125); the interior is re-dispatched as plain. -/
def decodeBraced (u t : List Nat) : List Nat × Bool :=
  if t.length < 2 ∨ t.getD 0 0 ≠ 123 ∨ t.getD (t.length - 1) 0 ≠ 125 then
    (u, false)
  else decodePlain u ((t.drop 1).take (t.length - 2))

/-- `decodeURN` (codec.go): the input must begin with the literal prefix
`urn:uuid:`; the remainder is re-dispatched as plain. -/
def decodeURN (u t : List Nat) : List Nat × Bool :=
  if t.length < 9 ∨ t.take 9 ≠ urnPrefix then (u, false)
  else decodePlain u (t.drop 9)

/-- `UnmarshalText` (codec.go): dispatch purely on the input length —
32 hash-like, 36 canonical, 38 braced, 41 or 45 URN; any other length is an
immediate error leaving the receiver unchanged. -/
def unmarshalText (u text : List Nat) : List Nat × Bool :=
  if text.length = 32 then decodeHashLike u text
  else if text.length = 36 then decodeCanonical u text
  else if text.length = 38 then decodeBraced u text
  else if text.length = 41 then decodeURN u text
  else if text.length = 45 then decodeURN u text
  else (u, false)

/-- `MarshalBinary` (codec.go): the 16 raw bytes verbatim (`Bytes()` is
`u[:]`, modelled from the spec §4.6 since uuid.go is absent). -/
def marshalBinary (u : List Nat) : List Nat := u

/-- `UnmarshalBinary` (codec.go): errors unless the input is exactly
16 bytes; otherwise copies the bytes verbatim into the receiver. -/
def unmarshalBinary (u data : List Nat) : List Nat × Bool :=
  if data.length = Size then (data, true) else (u, false)

/-! ### Generator state (generator.go)

`rfc4122Generator` holds two `sync.Once` latches, the clock-sequence /
last-timestamp pair and the cached node identifier.  External effects are
passed in explicitly per call: `seedRand` is the outcome of reading two
random bytes for the clock-sequence seed (`none` = the read failed),
`t` is the value `getEpoch()` samples for this call (the 100 ns tick count
against the UUID epoch, a `uint64`), `hw` is the outcome of `hwAddrFunc()`
(its first 6 bytes when it succeeds) and `hwRand` the outcome of reading
6 random fallback bytes.  A `sync.Once` marks itself done after its
function returns, whether or not that function recorded an error. -/

structure GenState where
  clockSeqInit : Bool
  clockSequence : Nat
  lastTime : Nat
  hwInit : Bool
  hardwareAddr : List Nat
deriving DecidableEq

/-- The zero value of `rfc4122Generator`: both latches pending, clock
sequence and last timestamp 0, node identifier all-zero. -/
def initGen : GenState :=
  { clockSeqInit := false, clockSequence := 0, lastTime := 0
    hwInit := false, hardwareAddr := List.replicate 6 0 }

/-- `getClockSequence` (generator.go): lazily seed the clock sequence from
two random bytes under a `sync.Once` (a failed read returns the error but
still consumes the latch); then, under the storage mutex, bump the
16-bit clock sequence whenever the sampled timestamp is not strictly
greater than `lastTime`, record the sample as `lastTime`, and return the
(timestamp, clockSequence) pair. -/
def getClockSequence (g : GenState) (seedRand : Option Nat) (t : Nat) :
    GenState × Option (Nat × Nat) :=
  if g.clockSeqInit then
    let cs := if t ≤ g.lastTime then (g.clockSequence + 1) % 65536 else g.clockSequence
    ({ g with clockSequence := cs, lastTime := t }, some (t, cs))
  else
    match seedRand with
    | none => ({ g with clockSeqInit := true }, none)
    | some s =>
      let g1 := { g with clockSeqInit := true, clockSequence := s % 65536 }
      let cs := if t ≤ g1.lastTime then (g1.clockSequence + 1) % 65536 else g1.clockSequence
      ({ g1 with clockSequence := cs, lastTime := t }, some (t, cs))

/-- `getHardwareAddr` (generator.go): under a `sync.Once`, take the first
6 bytes of a real hardware address if one is found, otherwise fall back to
6 random bytes with the multicast bit forced on; a failed random read
records the error but still consumes the latch, leaving the zero-value
address in place for later calls. -/
def getHardwareAddr (g : GenState) (hw : Option (List Nat))
    (hwRand : Option (List Nat)) : GenState × Option (List Nat) :=
  if g.hwInit then (g, some g.hardwareAddr)
  else
    match hw with
    | some addr =>
      let g1 := { g with hwInit := true, hardwareAddr := addr.take 6 }
      (g1, some g1.hardwareAddr)
    | none =>
      match hwRand with
      | some bs =>
        let a := (bs.take 6).set 0 ((bs.getD 0 0) ||| 0x01)
        let g1 := { g with hwInit := true, hardwareAddr := a }
        (g1, some g1.hardwareAddr)
      | none => ({ g with hwInit := true }, none)

/-- Big-endian bytes of `uint16 v`: `binary.BigEndian.PutUint16`. -/
def putUint16 (v : Nat) : List Nat := [v / 256 % 256, v % 256]

/-- Big-endian bytes of `uint32 v`: `binary.BigEndian.PutUint32`. -/
def putUint32 (v : Nat) : List Nat :=
  [v / 2 ^ 24 % 256, v / 2 ^ 16 % 256, v / 2 ^ 8 % 256, v % 256]

/-- `putUint48` (generator.go): the low 48 bits of `v`, big-endian,
most significant byte first. -/
def putUint48 (v : Nat) : List Nat :=
  [v / 2 ^ 40 % 256, v / 2 ^ 32 % 256, v / 2 ^ 24 % 256,
   v / 2 ^ 16 % 256, v / 2 ^ 8 % 256, v % 256]

/-- `NewV1` (generator.go): bytes 0–3 the low 32 bits of the timestamp,
bytes 4–5 `uint16(t >> 32)`, bytes 6–7 `uint16(t >> 48)`, bytes 8–9 the
clock sequence, bytes 10–15 the node identifier, then version 1 and the
RFC4122 variant are stamped.  A clock-sequence or node-identifier failure
returns `Nil` with the error. -/
def newV1 (g : GenState) (seedRand : Option Nat) (t : Nat)
    (hw : Option (List Nat)) (hwRand : Option (List Nat)) :
    GenState × Option (List Nat) :=
  match getClockSequence g seedRand t with
  | (g1, none) => (g1, none)
  | (g1, some (timeNow, clockSeq)) =>
    match getHardwareAddr g1 hw hwRand with
    | (g2, none) => (g2, none)
    | (g2, some hardwareAddr) =>
      let u := putUint32 (timeNow % 2 ^ 32) ++ putUint16 (timeNow / 2 ^ 32 % 2 ^ 16)
        ++ putUint16 (timeNow / 2 ^ 48 % 2 ^ 16) ++ putUint16 clockSeq ++ hardwareAddr
      (g2, some (setVariant (setVersion u 1) .RFC4122))

/-- Modelled from the spec §6: the DCE domain selector constants
`DomainPerson`, `DomainGroup`, `DomainOrg` of the absent uuid.go
(the standard DCE person/group/org byte values 0, 1, 2). -/
def DomainPerson : Nat := 0

/-- Modelled from the spec §6: see `DomainPerson`. -/
def DomainGroup : Nat := 1

/-- Modelled from the spec §6: see `DomainPerson`. -/
def DomainOrg : Nat := 2

/-- Overwrite `u[i..i+3]` with the big-endian bytes of `uint32 v`. -/
def setUint32At (u : List Nat) (i v : Nat) : List Nat :=
  (((u.set i (v / 2 ^ 24 % 256)).set (i + 1) (v / 2 ^ 16 % 256)).set
    (i + 2) (v / 2 ^ 8 % 256)).set (i + 3) (v % 256)

/-- `NewV2` (generator.go): generate a v1 identifier, overwrite bytes 0–3
with the POSIX UID for the person domain or the GID for the group domain
(any other domain leaves them untouched), write the raw domain byte to
byte 9, then stamp version 2 and the RFC4122 variant. -/
def newV2 (g : GenState) (domain : Nat) (uid gid : Nat)
    (seedRand : Option Nat) (t : Nat) (hw : Option (List Nat))
    (hwRand : Option (List Nat)) : GenState × Option (List Nat) :=
  match newV1 g seedRand t hw hwRand with
  | (g1, none) => (g1, none)
  | (g1, some u0) =>
    let u1 :=
      if domain = DomainPerson then setUint32At u0 0 uid
      else if domain = DomainGroup then setUint32At u0 0 gid
      else u0
    let u2 := (u1.set 9 domain)
    (g1, some (setVariant (setVersion u2 2) .RFC4122))

/-- `NewV6` (generator.go): the 60-bit timestamp reordered into sortable
big-endian order — bytes 0–1 `uint16(t >> 48)`, bytes 2–5 `uint32(t >> 16)`,
bytes 6–7 `uint16(t)` — then clock sequence, node identifier, version 6 and
the RFC4122 variant. -/
def newV6 (g : GenState) (seedRand : Option Nat) (t : Nat)
    (hw : Option (List Nat)) (hwRand : Option (List Nat)) :
    GenState × Option (List Nat) :=
  match getClockSequence g seedRand t with
  | (g1, none) => (g1, none)
  | (g1, some (timeNow, clockSeq)) =>
    match getHardwareAddr g1 hw hwRand with
    | (g2, none) => (g2, none)
    | (g2, some hardwareAddr) =>
      let u := putUint16 (timeNow / 2 ^ 48 % 2 ^ 16) ++ putUint32 (timeNow / 2 ^ 16 % 2 ^ 32)
        ++ putUint16 (timeNow % 2 ^ 16) ++ putUint16 clockSeq ++ hardwareAddr
      (g2, some (setVariant (setVersion u 6) .RFC4122))

/-- `NewV7` (generator.go): bytes 0–5 the 48-bit millisecond Unix
timestamp big-endian (sampled directly from the wall clock, not through the
shared clock-sequence state), bytes 6–15 random; then version 7 and the
RFC4122 variant are stamped.  `tMs` is `uint64(time.Now().UnixNano()/1e6)`
for this call and `tail` the outcome of reading 10 random bytes. -/
def newV7 (g : GenState) (tMs : Nat) (tail : Option (List Nat)) :
    GenState × Option (List Nat) :=
  match tail with
  | none => (g, none)
  | some bs =>
    let u := putUint48 tMs ++ bs.take 10
    (g, some (setVariant (setVersion u 7) .RFC4122))

/-- Go's `bytes.Compare`: lexicographic three-way comparison. -/
def bytesCompare : List Nat → List Nat → Int
  | [], [] => 0
  | [], _ :: _ => -1
  | _ :: _, [] => 1
  | a :: as, b :: bs =>
    if a < b then -1 else if b < a then 1 else bytesCompare as bs

/-! ### MD5 and SHA-1 (crypto/md5, crypto/sha1 as used by newFromHash)

32-bit words are `Nat` values reduced `% 2 ^ 32`.  Both digests follow
their standards exactly: Merkle–Damgård padding to 64-byte blocks with the
bit length appended (little-endian for MD5, big-endian for SHA-1), and the
standard per-block compression. -/

/-- 32-bit left rotation of `x < 2 ^ 32` by `c` bits. -/
def rotl32 (x c : Nat) : Nat := ((x <<< c) ||| (x >>> (32 - c))) % 2 ^ 32

/-- 32-bit bitwise complement. -/
def not32 (x : Nat) : Nat := x ^^^ 0xffffffff

/-- Little-endian 32-bit words of a byte list. -/
def leWords : List Nat → List Nat
  | b0 :: b1 :: b2 :: b3 :: rest =>
    (b0 + b1 * 256 + b2 * 65536 + b3 * 16777216) :: leWords rest
  | _ => []

/-- Big-endian 32-bit words of a byte list. -/
def beWords : List Nat → List Nat
  | b0 :: b1 :: b2 :: b3 :: rest =>
    (b0 * 16777216 + b1 * 65536 + b2 * 256 + b3) :: beWords rest
  | _ => []

/-- Little-endian bytes of a 32-bit word. -/
def le32 (v : Nat) : List Nat :=
  [v % 256, v / 2 ^ 8 % 256, v / 2 ^ 16 % 256, v / 2 ^ 24 % 256]

/-- Big-endian bytes of a 32-bit word. -/
def be32 (v : Nat) : List Nat :=
  [v / 2 ^ 24 % 256, v / 2 ^ 16 % 256, v / 2 ^ 8 % 256, v % 256]

/-- Little-endian bytes of a 64-bit value. -/
def le64 (v : Nat) : List Nat :=
  [v % 256, v / 2 ^ 8 % 256, v / 2 ^ 16 % 256, v / 2 ^ 24 % 256,
   v / 2 ^ 32 % 256, v / 2 ^ 40 % 256, v / 2 ^ 48 % 256, v / 2 ^ 56 % 256]

/-- Big-endian bytes of a 64-bit value. -/
def be64 (v : Nat) : List Nat :=
  [v / 2 ^ 56 % 256, v / 2 ^ 48 % 256, v / 2 ^ 40 % 256, v / 2 ^ 32 % 256,
   v / 2 ^ 24 % 256, v / 2 ^ 16 % 256, v / 2 ^ 8 % 256, v % 256]

/-- Split the first `n` 64-byte chunks off a byte list. -/
def toBlocksAux : Nat → List Nat → List (List Nat)
  | 0, _ => []
  | n + 1, l => l.take 64 :: toBlocksAux n (l.drop 64)

/-- Split a byte list (of length a multiple of 64 after padding) into
64-byte blocks. -/
def toBlocks (l : List Nat) : List (List Nat) :=
  toBlocksAux ((l.length + 63) / 64) l

/-- The 64 MD5 sine constants of RFC 1321. -/
def md5K : List Nat :=
  [0xd76aa478, 0xe8c7b756, 0x242070db, 0xc1bdceee,
   0xf57c0faf, 0x4787c62a, 0xa8304613, 0xfd469501,
   0x698098d8, 0x8b44f7af, 0xffff5bb1, 0x895cd7be,
   0x6b901122, 0xfd987193, 0xa679438e, 0x49b40821,
   0xf61e2562, 0xc040b340, 0x265e5a51, 0xe9b6c7aa,
   0xd62f105d, 0x02441453, 0xd8a1e681, 0xe7d3fbc8,
   0x21e1cde6, 0xc33707d6, 0xf4d50d87, 0x455a14ed,
   0xa9e3e905, 0xfcefa3f8, 0x676f02d9, 0x8d2a4c8a,
   0xfffa3942, 0x8771f681, 0x6d9d6122, 0xfde5380c,
   0xa4beea44, 0x4bdecfa9, 0xf6bb4b60, 0xbebfbc70,
   0x289b7ec6, 0xeaa127fa, 0xd4ef3085, 0x04881d05,
   0xd9d4d039, 0xe6db99e5, 0x1fa27cf8, 0xc4ac5665,
   0xf4292244, 0x432aff97, 0xab9423a7, 0xfc93a039,
   0x655b59c3, 0x8f0ccc92, 0xffeff47d, 0x85845dd1,
   0x6fa87e4f, 0xfe2ce6e0, 0xa3014314, 0x4e0811a1,
   0xf7537e82, 0xbd3af235, 0x2ad7d2bb, 0xeb86d391]

/-- The 64 MD5 per-round left-rotation amounts. -/
def md5S : List Nat :=
  [7, 12, 17, 22, 7, 12, 17, 22, 7, 12, 17, 22, 7, 12, 17, 22,
   5, 9, 14, 20, 5, 9, 14, 20, 5, 9, 14, 20, 5, 9, 14, 20,
   4, 11, 16, 23, 4, 11, 16, 23, 4, 11, 16, 23, 4, 11, 16, 23,
   6, 10, 15, 21, 6, 10, 15, 21, 6, 10, 15, 21, 6, 10, 15, 21]

/-- One MD5 operation (round `i` of 64) on the state `(a, b, c, d)` with
message words `m`. -/
def md5Op (m : List Nat) (st : Nat × Nat × Nat × Nat) (i : Nat) :
    Nat × Nat × Nat × Nat :=
  let a := st.1; let b := st.2.1; let c := st.2.2.1; let d := st.2.2.2
  let fg : Nat × Nat :=
    if i < 16 then ((b &&& c) ||| (not32 b &&& d), i)
    else if i < 32 then ((d &&& b) ||| (not32 d &&& c), (5 * i + 1) % 16)
    else if i < 48 then (b ^^^ c ^^^ d, (3 * i + 5) % 16)
    else (c ^^^ (b ||| not32 d), (7 * i) % 16)
  let f2 := (fg.1 + a + md5K.getD i 0 + m.getD fg.2 0) % 2 ^ 32
  (d, (b + rotl32 f2 (md5S.getD i 0)) % 2 ^ 32, b, c)

/-- MD5 compression of one 64-byte block into the chaining state. -/
def md5Block (st : Nat × Nat × Nat × Nat) (block : List Nat) :
    Nat × Nat × Nat × Nat :=
  let m := leWords block
  let r := (List.range 64).foldl (md5Op m) st
  ((st.1 + r.1) % 2 ^ 32, (st.2.1 + r.2.1) % 2 ^ 32,
   (st.2.2.1 + r.2.2.1) % 2 ^ 32, (st.2.2.2 + r.2.2.2) % 2 ^ 32)

/-- MD5/SHA-1 padding: a 0x80 byte, zeros to 56 mod 64, then the 8-byte
bit length rendered by `lenBytes`. -/
def mdPad (lenBytes : Nat → List Nat) (msg : List Nat) : List Nat :=
  let len := msg.length
  msg ++ 0x80 :: List.replicate ((119 - len % 64) % 64) 0 ++ lenBytes (len * 8)

/-- The 16-byte MD5 digest of a byte string. -/
def md5Bytes (msg : List Nat) : List Nat :=
  let st := (toBlocks (mdPad le64 msg)).foldl md5Block
    (0x67452301, 0xefcdab89, 0x98badcfe, 0x10325476)
  le32 st.1 ++ le32 st.2.1 ++ le32 st.2.2.1 ++ le32 st.2.2.2

/-- The 80 expanded SHA-1 message-schedule words of one block. -/
def sha1Ws (m : List Nat) : List Nat :=
  (List.range 80).foldl (fun w i =>
    if i < 16 then w ++ [m.getD i 0]
    else w ++ [rotl32 ((w.getD (i - 3) 0) ^^^ (w.getD (i - 8) 0) ^^^
      (w.getD (i - 14) 0) ^^^ (w.getD (i - 16) 0)) 1]) []

/-- One SHA-1 operation (round `i` of 80) on the state
`(a, b, c, d, e)` with schedule `w`. -/
def sha1Op (w : List Nat) (st : Nat × Nat × Nat × Nat × Nat) (i : Nat) :
    Nat × Nat × Nat × Nat × Nat :=
  let a := st.1; let b := st.2.1; let c := st.2.2.1
  let d := st.2.2.2.1; let e := st.2.2.2.2
  let fk : Nat × Nat :=
    if i < 20 then ((b &&& c) ||| (not32 b &&& d), 0x5a827999)
    else if i < 40 then (b ^^^ c ^^^ d, 0x6ed9eba1)
    else if i < 60 then ((b &&& c) ||| (b &&& d) ||| (c &&& d), 0x8f1bbcdc)
    else (b ^^^ c ^^^ d, 0xca62c1d6)
  let temp := (rotl32 a 5 + fk.1 + e + fk.2 + w.getD i 0) % 2 ^ 32
  (temp, a, rotl32 b 30, c, d)

/-- SHA-1 compression of one 64-byte block into the chaining state. -/
def sha1Block (st : Nat × Nat × Nat × Nat × Nat) (block : List Nat) :
    Nat × Nat × Nat × Nat × Nat :=
  let w := sha1Ws (beWords block)
  let r := (List.range 80).foldl (sha1Op w) st
  ((st.1 + r.1) % 2 ^ 32, (st.2.1 + r.2.1) % 2 ^ 32,
   (st.2.2.1 + r.2.2.1) % 2 ^ 32, (st.2.2.2.1 + r.2.2.2.1) % 2 ^ 32,
   (st.2.2.2.2 + r.2.2.2.2) % 2 ^ 32)

/-- The 20-byte SHA-1 digest of a byte string. -/
def sha1Bytes (msg : List Nat) : List Nat :=
  let st := (toBlocks (mdPad be64 msg)).foldl sha1Block
    (0x67452301, 0xefcdab89, 0x98badcfe, 0x10325476, 0xc3d2e1f0)
  be32 st.1 ++ be32 st.2.1 ++ be32 st.2.2.1 ++ be32 st.2.2.2.1 ++ be32 st.2.2.2.2

/-- `newFromHash` (generator.go): hash the namespace's 16 raw bytes
followed by the name's raw bytes, and copy the digest's first 16 bytes
into the identifier. -/
def newFromHash (digest : List Nat → List Nat) (ns name : List Nat) : List Nat :=
  (digest (ns ++ name)).take 16

/-- `finalizeUUID` (generator.go): stamp the version and the RFC4122
variant. -/
def finalizeUUID (u : List Nat) (v : Nat) : List Nat :=
  setVariant (setVersion u v) .RFC4122

/-- `NewV3` (generator.go): the MD5-based deterministic identifier. -/
def newV3 (ns name : List Nat) : List Nat :=
  finalizeUUID (newFromHash md5Bytes ns name) 3

/-- `NewV5` (generator.go): the SHA-1-based deterministic identifier. -/
def newV5 (ns name : List Nat) : List Nat :=
  finalizeUUID (newFromHash sha1Bytes ns name) 5

/-- Modelled from the spec: `NamespaceDNS` of the absent uuid.go,
the RFC4122 DNS namespace `6ba7b810-9dad-11d1-80b4-00c04fd430c8`. -/
def NamespaceDNS : List Nat :=
  [0x6b, 0xa7, 0xb8, 0x10, 0x9d, 0xad, 0x11, 0xd1,
   0x80, 0xb4, 0x00, 0xc0, 0x4f, 0xd4, 0x30, 0xc8]

/-- The ASCII bytes of the name `www.example.com`. -/
def wwwExampleCom : List Nat :=
  [119, 119, 119, 46, 101, 120, 97, 109, 112, 108, 101, 46, 99, 111, 109]

/-- `NewV4` (generator.go): fill all 16 bytes from the random source
(`rand` is the outcome of that read, `none` = failure, which returns `Nil`
with the error), then stamp version 4 and the RFC4122 variant. -/
def newV4 (g : GenState) (rand : Option (List Nat)) :
    GenState × Option (List Nat) :=
  match rand with
  | none => (g, none)
  | some bs => (g, some (finalizeUUID (bs.take 16) 4))

/-- The `k` big-endian base-256 digits of `t` (most significant first). -/
def beBytes : Nat → Nat → List Nat
  | 0, _ => []
  | k + 1, t => (t / 2 ^ (8 * k)) % 256 :: beBytes k (t % 2 ^ (8 * k))

/-- ASCII bytes of `5df41881-3aed-3515-88a7-2f4a814cf09e`, the expected
text of `NewV3(NamespaceDNS, "www.example.com")`. -/
def v3Expected : List Nat :=
  [53, 100, 102, 52, 49, 56, 56, 49, 45, 51, 97, 101, 100, 45, 51, 53, 49, 53,
   45, 56, 56, 97, 55, 45, 50, 102, 52, 97, 56, 49, 52, 99, 102, 48, 57, 101]

/-- ASCII bytes of `2ed6657d-e927-568b-95e1-2665a8aea6a2`, the expected
text of `NewV5(NamespaceDNS, "www.example.com")`. -/
def v5Expected : List Nat :=
  [50, 101, 100, 54, 54, 53, 55, 100, 45, 101, 57, 50, 55, 45, 53, 54, 56, 98,
   45, 57, 53, 101, 49, 45, 50, 54, 54, 53, 97, 56, 97, 101, 97, 54, 97, 50]

/-- ASCII bytes of `00000000-0000-0000-0000-00000000000z`: dashes correctly
placed, first four hex groups valid, a non-hex `z` as the final character. -/
def c10Input : List Nat :=
  [48, 48, 48, 48, 48, 48, 48, 48, 45, 48, 48, 48, 48, 45, 48, 48, 48, 48,
   45, 48, 48, 48, 48, 45, 48, 48, 48, 48, 48, 48, 48, 48, 48, 48, 48, 122]

/-! ## Helper lemmas -/

theorem fromHexChar_hexDigitChar {n : Nat} (h : n < 16) :
    fromHexChar (hexDigitChar n) = some n := by
  have key : ∀ m : Fin 16, fromHexChar (hexDigitChar m.val) = some m.val := by decide
  exact key ⟨n, h⟩

theorem fromHexChar_div {b : Nat} (h : b < 256) :
    fromHexChar (hexDigitChar (b / 16)) = some (b / 16) :=
  fromHexChar_hexDigitChar (by omega)

theorem fromHexChar_mod (b : Nat) :
    fromHexChar (hexDigitChar (b % 16)) = some (b % 16) :=
  fromHexChar_hexDigitChar (Nat.mod_lt _ (by norm_num))

theorem hexDecodeCore_hexList {bs : List Nat} (h : ∀ b ∈ bs, b < 256) :
    hexDecodeCore (hexList bs) = (bs, true) := by
  induction bs with
  | nil => rfl
  | cons b bs ih =>
    have hb : b < 256 := h b (by simp)
    have hrest : ∀ x ∈ bs, x < 256 := fun x hx => h x (by simp [hx])
    have hsplit : b / 16 * 16 + b % 16 = b := by omega
    simp [hexList, byteToHex, hexDecodeCore, fromHexChar_div hb,
      fromHexChar_mod b, ih hrest, hsplit]

theorem hexList_length (bs : List Nat) : (hexList bs).length = 2 * bs.length := by
  induction bs with
  | nil => rfl
  | cons b bs ih => simp [hexList, byteToHex, ih]; omega

/-! ## Claim theorems -/

set_option maxRecDepth 100000 in
/-- C6: `NewV3`/`NewV5` are the first 16 bytes of the MD5/SHA-1 digest of
the namespace's raw bytes followed by the name's bytes, stamped with
version 3/5 and the RFC4122 variant; in particular
`NewV3(NamespaceDNS, "www.example.com")` encodes to
`5df41881-3aed-3515-88a7-2f4a814cf09e` and
`NewV5(NamespaceDNS, "www.example.com")` encodes to
`2ed6657d-e927-568b-95e1-2665a8aea6a2`. -/
theorem claim_C6 :
    uuidString (newV3 NamespaceDNS wwwExampleCom) = v3Expected ∧
    uuidString (newV5 NamespaceDNS wwwExampleCom) = v5Expected ∧
    version (newV3 NamespaceDNS wwwExampleCom) = 3 ∧
    variant (newV3 NamespaceDNS wwwExampleCom) = Variant.RFC4122 ∧
    version (newV5 NamespaceDNS wwwExampleCom) = 5 ∧
    variant (newV5 NamespaceDNS wwwExampleCom) = Variant.RFC4122 := by
  decide

/-- C10: text decoding is not atomic on failure — on the 36-character
input `00000000-0000-0000-0000-00000000000z` (dashes correct, first hex
groups valid, non-hex final character) `UnmarshalText` reports an error
yet has already overwritten the first 15 bytes of the receiver, leaving it
partially modified. -/
theorem claim_C10 :
    unmarshalText NamespaceDNS c10Input
      = ([0, 0, 0, 0, 0, 0, 0, 0, 0, 0, 0, 0, 0, 0, 0, 0xc8], false) ∧
    (unmarshalText NamespaceDNS c10Input).1 ≠ NamespaceDNS := by
  decide

/-- C4: binary decode succeeds exactly on inputs of length 16 (copying the
bytes verbatim), fails leaving the receiver untouched for every other
length, and the binary round-trip
`decodeBinary(encodeBinary(decodeBinary(b))) = decodeBinary(b)` holds for
every valid 16-byte input. -/
theorem claim_C4 (u0 b : List Nat) :
    (b.length = 16 → unmarshalBinary u0 b = (b, true)) ∧
    (b.length ≠ 16 → unmarshalBinary u0 b = (u0, false)) ∧
    (b.length = 16 →
      unmarshalBinary u0 (marshalBinary (unmarshalBinary u0 b).1)
        = unmarshalBinary u0 b) := by
  refine ⟨?_, ?_, ?_⟩ <;> intro h <;>
    simp [unmarshalBinary, marshalBinary, Size, h]

/-- C5: `UnmarshalText` dispatches purely on the byte length and fails
immediately, leaving the receiver unchanged, for every length outside
`{32, 36, 38, 41, 45}`; and in the 36-length canonical branch a missing or
misplaced dash at any of offsets 8, 13, 18, 23 is an error, independent of
whether the surrounding characters are valid hex. -/
theorem claim_C5 (u0 t : List Nat) :
    (t.length ∉ ([32, 36, 38, 41, 45] : List Nat) →
      unmarshalText u0 t = (u0, false)) ∧
    (t.length = 36 →
      ¬(t.getD 8 0 = 45 ∧ t.getD 13 0 = 45 ∧ t.getD 18 0 = 45 ∧ t.getD 23 0 = 45) →
      unmarshalText u0 t = (u0, false)) := by
  constructor
  · intro h
    simp only [List.mem_cons, List.not_mem_nil, or_false, not_or] at h
    obtain ⟨h1, h2, h3, h4, h5⟩ := h
    simp [unmarshalText, h1, h2, h3, h4, h5]
  · intro h36 hdash
    have hdisp : unmarshalText u0 t = decodeCanonical u0 t := by
      simp only [unmarshalText, h36]; norm_num
    rw [hdisp]
    simp only [decodeCanonical]
    rw [if_neg hdash]

theorem claim_C5_witness :
    unmarshalText NilUUID [49, 50, 51] = (NilUUID, false) ∧
    unmarshalText NilUUID (List.replicate 36 48) = (NilUUID, false) :=
  ⟨(claim_C5 NilUUID [49, 50, 51]).1 (by decide),
   (claim_C5 NilUUID (List.replicate 36 48)).2 (by decide) (by decide)⟩

theorem claim_C4_witness :
    unmarshalBinary NilUUID NamespaceDNS = (NamespaceDNS, true) ∧
    unmarshalBinary NilUUID [1, 2, 3] = (NilUUID, false) ∧
    unmarshalBinary NilUUID (marshalBinary (unmarshalBinary NilUUID NamespaceDNS).1)
      = unmarshalBinary NilUUID NamespaceDNS :=
  ⟨(claim_C4 NilUUID NamespaceDNS).1 (by decide),
   (claim_C4 NilUUID [1, 2, 3]).2.1 (by decide),
   (claim_C4 NilUUID NamespaceDNS).2.2 (by decide)⟩

theorem getD_at_append (l1 l2 : List Nat) (n : Nat) (h : l1.length = n) (x d : Nat) :
    (l1 ++ x :: l2).getD n d = x := by
  rw [List.getD_append_right _ _ _ _ (by omega), h]
  simp

theorem getD_append_shift (l1 l2 : List Nat) (n k d : Nat) (h : l1.length = k)
    (hn : k ≤ n) : (l1 ++ l2).getD n d = l2.getD (n - k) d := by
  rw [List.getD_append_right _ _ _ _ (by omega), h]

theorem getD_cons_shift (x d n m : Nat) (l : List Nat) (h : n = m + 1) :
    (x :: l).getD n d = l.getD m d := by
  subst h; rfl

theorem decodeGroups_step (g : Nat) (gs bs rest uRest : List Nat)
    (hg : (hexList bs).length = g) (hbs : ∀ b ∈ bs, b < 256) :
    decodeGroups (g :: gs) (hexList bs ++ rest) uRest true
      = (bs ++ (decodeGroups gs rest (uRest.drop (g / 2)) false).1,
         (decodeGroups gs rest (uRest.drop (g / 2)) false).2) := by
  simp only [decodeGroups, if_true]
  rw [List.take_left' hg, List.drop_left' hg, hexDecodeCore_hexList hbs]
  simp

theorem decodeGroups_step_mid (g : Nat) (gs bs rest uRest : List Nat)
    (hg : (hexList bs).length = g) (hbs : ∀ b ∈ bs, b < 256) :
    decodeGroups (g :: gs) (45 :: (hexList bs ++ rest)) uRest false
      = (bs ++ (decodeGroups gs rest (uRest.drop (g / 2)) false).1,
         (decodeGroups gs rest (uRest.drop (g / 2)) false).2) := by
  simp only [decodeGroups, Bool.false_eq_true, if_false, List.drop_succ_cons,
    List.drop_zero]
  rw [List.take_left' hg, List.drop_left' hg, hexDecodeCore_hexList hbs]
  simp

theorem decodeGroups_last (g : Nat) (bs uRest : List Nat)
    (hg : (hexList bs).length = g) (hbs : ∀ b ∈ bs, b < 256) :
    decodeGroups [g] (45 :: hexList bs) uRest false
      = (bs ++ uRest.drop (g / 2), true) := by
  simp only [decodeGroups, Bool.false_eq_true, if_false, List.drop_succ_cons,
    List.drop_zero]
  rw [List.take_of_length_le (by omega), hexDecodeCore_hexList hbs]
  simp

/-- C3: the text round-trip — decoding the canonical lower-case hyphenated
36-character encoding of any 16-byte identifier into any 16-byte receiver
recovers exactly that identifier, with success. -/
theorem claim_C3 (u u0 : List Nat) (hlen : u.length = 16) (hu0 : u0.length = 16)
    (hb : ∀ b ∈ u, b < 256) :
    unmarshalText u0 (marshalText u) = (u, true) := by
  have l4 : (u.take 4).length = 4 := by have := List.length_take 4 u; omega
  have ld4 : (u.drop 4).length = 12 := by simp [hlen]
  have ld6 : (u.drop 6).length = 10 := by simp [hlen]
  have ld8 : (u.drop 8).length = 8 := by simp [hlen]
  have l45 : ((u.drop 4).take 2).length = 2 := by
    have := List.length_take 2 (u.drop 4); omega
  have l67 : ((u.drop 6).take 2).length = 2 := by
    have := List.length_take 2 (u.drop 6); omega
  have l89 : ((u.drop 8).take 2).length = 2 := by
    have := List.length_take 2 (u.drop 8); omega
  have l10 : (u.drop 10).length = 6 := by simp [hlen]
  have hA : (hexList (u.take 4)).length = 8 := by rw [hexList_length, l4]
  have hB : (hexList ((u.drop 4).take 2)).length = 4 := by rw [hexList_length, l45]
  have hC : (hexList ((u.drop 6).take 2)).length = 4 := by rw [hexList_length, l67]
  have hD : (hexList ((u.drop 8).take 2)).length = 4 := by rw [hexList_length, l89]
  have hE : (hexList (u.drop 10)).length = 12 := by rw [hexList_length, l10]
  have hbA : ∀ b ∈ u.take 4, b < 256 := fun b h => hb b (List.take_subset _ _ h)
  have hbB : ∀ b ∈ (u.drop 4).take 2, b < 256 := fun b h =>
    hb b (List.drop_subset _ _ (List.take_subset _ _ h))
  have hbC : ∀ b ∈ (u.drop 6).take 2, b < 256 := fun b h =>
    hb b (List.drop_subset _ _ (List.take_subset _ _ h))
  have hbD : ∀ b ∈ (u.drop 8).take 2, b < 256 := fun b h =>
    hb b (List.drop_subset _ _ (List.take_subset _ _ h))
  have hbE : ∀ b ∈ u.drop 10, b < 256 := fun b h => hb b (List.drop_subset _ _ h)
  have hT : (uuidString u).length = 36 := by
    simp [uuidString, hA, hB, hC, hD, hE]
  have d8 : (uuidString u).getD 8 0 = 45 := by
    rw [uuidString, getD_at_append _ _ 8 hA]
  have d13 : (uuidString u).getD 13 0 = 45 := by
    rw [uuidString, getD_append_shift _ _ 13 8 0 hA (by omega),
      getD_cons_shift _ _ _ 4 _ (by norm_num), getD_at_append _ _ 4 hB]
  have d18 : (uuidString u).getD 18 0 = 45 := by
    rw [uuidString, getD_append_shift _ _ 18 8 0 hA (by omega),
      getD_cons_shift _ _ _ 9 _ (by norm_num),
      getD_append_shift _ _ 9 4 0 hB (by omega),
      getD_cons_shift _ _ _ 4 _ (by norm_num), getD_at_append _ _ 4 hC]
  have d23 : (uuidString u).getD 23 0 = 45 := by
    rw [uuidString, getD_append_shift _ _ 23 8 0 hA (by omega),
      getD_cons_shift _ _ _ 14 _ (by norm_num),
      getD_append_shift _ _ 14 4 0 hB (by omega),
      getD_cons_shift _ _ _ 9 _ (by norm_num),
      getD_append_shift _ _ 9 4 0 hC (by omega),
      getD_cons_shift _ _ _ 4 _ (by norm_num), getD_at_append _ _ 4 hD]
  have hdg : decodeGroups byteGroups (uuidString u) u0 true = (u, true) := by
    rw [byteGroups, uuidString,
      decodeGroups_step 8 _ _ _ _ hA hbA,
      decodeGroups_step_mid 4 _ _ _ _ hB hbB,
      decodeGroups_step_mid 4 _ _ _ _ hC hbC,
      decodeGroups_step_mid 4 _ _ _ _ hD hbD,
      decodeGroups_last 12 _ _ hE hbE]
    have hX : ((((u0.drop (8 / 2)).drop (4 / 2)).drop (4 / 2)).drop (4 / 2)).drop (12 / 2)
        = [] := by
      simp only [List.drop_drop]
      exact List.drop_eq_nil_of_le (by omega)
    rw [hX, List.append_nil]
    have e1 : (u.drop 8).take 2 ++ u.drop 10 = u.drop 8 := by
      have h2 := List.take_append_drop 2 (u.drop 8)
      rw [List.drop_drop] at h2
      norm_num at h2
      exact h2
    have e2 : (u.drop 6).take 2 ++ u.drop 8 = u.drop 6 := by
      have h2 := List.take_append_drop 2 (u.drop 6)
      rw [List.drop_drop] at h2
      norm_num at h2
      exact h2
    have e3 : (u.drop 4).take 2 ++ u.drop 6 = u.drop 4 := by
      have h2 := List.take_append_drop 2 (u.drop 4)
      rw [List.drop_drop] at h2
      norm_num at h2
      exact h2
    rw [e1, e2, e3, List.take_append_drop]
  have hdisp : unmarshalText u0 (uuidString u) = decodeCanonical u0 (uuidString u) := by
    simp only [unmarshalText, hT]
    norm_num
  rw [marshalText, hdisp, decodeCanonical, if_pos ⟨d8, d13, d18, d23⟩, hdg]

theorem claim_C3_witness :
    unmarshalText NilUUID (marshalText NamespaceDNS) = (NamespaceDNS, true) :=
  claim_C3 NamespaceDNS NilUUID (by decide) (by decide) (by decide)

/-! ## Generator lemmas -/

theorem getD_set_same (l : List Nat) (i x d : Nat) (h : i < l.length) :
    (l.set i x).getD i d = x := by
  rw [List.getD_eq_getElem?_getD, List.getElem?_set_self h]
  rfl

theorem getD_set_other (l : List Nat) (i j x d : Nat) (h : i ≠ j) :
    (l.set i x).getD j d = l.getD j d := by
  rw [List.getD_eq_getElem?_getD, List.getElem?_set_ne h,
    ← List.getD_eq_getElem?_getD]

theorem take_set_of_le (l : List Nat) (i n x : Nat) (h : n ≤ i) :
    (l.set i x).take n = l.take n := by
  induction l generalizing i n with
  | nil => rfl
  | cons a l ih =>
    cases i with
    | zero =>
      have hn : n = 0 := by omega
      subst hn; rfl
    | succ i =>
      cases n with
      | zero => rfl
      | succ n =>
        simp only [List.set_cons_succ, List.take_succ_cons]
        rw [ih i n (by omega)]

theorem shift_ver {x v : Nat} (hx : x < 16) (hv : v < 16) :
    (x ||| v <<< 4) >>> 4 = v := by
  have key : ∀ x v : Fin 16, ((x.val ||| v.val <<< 4) >>> 4) = v.val := by decide
  exact key ⟨x, hx⟩ ⟨v, hv⟩

theorem and15_lt (x : Nat) : x &&& 15 < 16 := Nat.lt_succ_of_le Nat.and_le_right

theorem and63_lt (x : Nat) : x &&& 63 < 64 := Nat.lt_succ_of_le Nat.and_le_right

theorem variant_bits {x : Nat} (hx : x < 64) :
    (x ||| 128) >>> 5 ≠ 7 ∧ (x ||| 128) >>> 5 ≠ 6 ∧ (x ||| 128) >>> 6 = 2 := by
  have key : ∀ x : Fin 64, ((x.val ||| 128) >>> 5 ≠ 7 ∧ (x.val ||| 128) >>> 5 ≠ 6 ∧
      (x.val ||| 128) >>> 6 = 2) := by decide
  exact key ⟨x, hx⟩

theorem version_finalize (u : List Nat) (v : Nat) (hv : v < 16)
    (hlen : 6 < u.length) :
    version (setVariant (setVersion u v) Variant.RFC4122) = v := by
  simp only [version, setVariant, setVersion]
  rw [getD_set_other _ 8 6 _ _ (by omega),
    getD_set_same _ 6 _ _ (by simpa using hlen)]
  exact shift_ver (and15_lt _) hv

theorem variant_setVariant (w : List Nat) (hlen : 8 < w.length) :
    variant (setVariant w Variant.RFC4122) = Variant.RFC4122 := by
  simp only [variant, setVariant]
  have hkey := getD_set_same w 8 ((w.getD 8 0 &&& 63) ||| 128) 0 hlen
  simp only [hkey]
  obtain ⟨h5, h6, h7⟩ := variant_bits (and63_lt (w.getD 8 0))
  rw [List.getD_eq_getElem?_getD] at h5 h6 h7
  simp [h5, h6, h7]

theorem variant_finalize (u : List Nat) (v : Nat) (hlen : 8 < u.length) :
    variant (setVariant (setVersion u v) Variant.RFC4122) = Variant.RFC4122 :=
  variant_setVariant (setVersion u v) (by simpa [setVersion] using hlen)

theorem bytesCompare_self : ∀ l : List Nat, bytesCompare l l = 0
  | [] => rfl
  | a :: l => by simp [bytesCompare, bytesCompare_self l]

theorem bytesCompare_beBytes_lt :
    ∀ (k t1 t2 : Nat), t1 < t2 → t2 < 2 ^ (8 * k) →
      bytesCompare (beBytes k t1) (beBytes k t2) = -1 := by
  intro k
  induction k with
  | zero =>
    intro t1 t2 hlt hb
    simp at hb
    omega
  | succ k ih =>
    intro t1 t2 hlt hb
    simp only [beBytes]
    have he : 0 < 2 ^ (8 * k) := Nat.pos_pow_of_pos _ (by norm_num)
    have hb' : t2 < 256 * 2 ^ (8 * k) := by
      have hpow : 2 ^ (8 * (k + 1)) = 2 ^ (8 * k) * 2 ^ 8 := by
        rw [← pow_add]; ring_nf
      rw [hpow] at hb
      omega
    have q2lt : t2 / 2 ^ (8 * k) < 256 := (Nat.div_lt_iff_lt_mul he).mpr hb'
    have q1le : t1 / 2 ^ (8 * k) ≤ t2 / 2 ^ (8 * k) := Nat.div_le_div_right (le_of_lt hlt)
    have q1lt : t1 / 2 ^ (8 * k) < 256 := lt_of_le_of_lt q1le q2lt
    rw [Nat.mod_eq_of_lt q1lt, Nat.mod_eq_of_lt q2lt]
    rcases lt_or_eq_of_le q1le with hq | hq
    · simp [bytesCompare, hq]
    · have hr : t1 % 2 ^ (8 * k) < t2 % 2 ^ (8 * k) := by
        have h1 := Nat.div_add_mod t1 (2 ^ (8 * k))
        have h2 := Nat.div_add_mod t2 (2 ^ (8 * k))
        rw [hq] at h1
        have h3 : 2 ^ (8 * k) * (t2 / 2 ^ (8 * k)) + t1 % 2 ^ (8 * k) = t1 := h1
        generalize 2 ^ (8 * k) * (t2 / 2 ^ (8 * k)) = m at h3 h2
        omega
      rw [hq]
      simp only [bytesCompare, lt_irrefl, if_false]
      exact ih _ _ hr (Nat.mod_lt _ he)

theorem bytesCompare_beBytes_le (k a b : Nat) (hab : a ≤ b) (hb : b < 2 ^ (8 * k)) :
    bytesCompare (beBytes k a) (beBytes k b) ≤ 0 := by
  rcases lt_or_eq_of_le hab with h | h
  · rw [bytesCompare_beBytes_lt k a b h hb]; norm_num
  · rw [h, bytesCompare_self]

theorem putUint48_eq_beBytes (t : Nat) : putUint48 t = beBytes 6 t := by
  simp only [putUint48, beBytes]
  norm_num
  omega

theorem getClockSequence_ts (g : GenState) (s : Option Nat) (t ts cs : Nat)
    (h : (getClockSequence g s t).2 = some (ts, cs)) : ts = t := by
  cases hinit : g.clockSeqInit with
  | true =>
    simp only [getClockSequence, hinit, if_true] at h
    simp at h
    exact h.1.symm
  | false =>
    cases s with
    | none => simp [getClockSequence, hinit] at h
    | some v =>
      simp only [getClockSequence, hinit, Bool.false_eq_true, if_false] at h
      simp at h
      exact h.1.symm

theorem newV7_take6 (g : GenState) (tMs : Nat) (bs u : List Nat)
    (h : (newV7 g tMs (some bs)).2 = some u) : u.take 6 = putUint48 tMs := by
  simp only [newV7] at h
  simp at h
  rw [← h]
  simp only [setVariant, setVersion]
  rw [take_set_of_le _ 8 6 _ (by omega), take_set_of_le _ 6 6 _ (by omega),
    List.take_left' (by simp [putUint48])]

theorem newV6_take6 (g : GenState) (s : Option Nat) (t : Nat)
    (hw hr : Option (List Nat)) (u : List Nat)
    (h : (newV6 g s t hw hr).2 = some u) :
    u.take 6 = beBytes 6 (t / 2 ^ 16 % 2 ^ 48) := by
  rcases hcs : getClockSequence g s t with ⟨g1, o1⟩
  rcases o1 with _ | ⟨ts, cs⟩
  · simp [newV6, hcs] at h
  rcases hhw : getHardwareAddr g1 hw hr with ⟨g2, o2⟩
  rcases o2 with _ | ha
  · simp [newV6, hcs, hhw] at h
  have hts : ts = t := getClockSequence_ts g s t ts cs (by rw [hcs])
  simp only [newV6, hcs, hhw] at h
  simp at h
  rw [← h, hts]
  simp only [setVariant, setVersion]
  rw [take_set_of_le _ 8 6 _ (by omega), take_set_of_le _ 6 6 _ (by omega),
    ← List.append_assoc, List.take_left' (by simp [putUint16, putUint32])]
  simp only [putUint16, putUint32, beBytes, List.cons_append, List.nil_append]
  norm_num
  omega

theorem newV2_eq (g : GenState) (domain uid gid : Nat) (s : Option Nat) (t : Nat)
    (hw hr : Option (List Nat)) :
    (newV2 g domain uid gid s t hw hr).2
      = ((newV1 g s t hw hr).2).map (fun u0 =>
          setVariant (setVersion
            ((if domain = DomainPerson then setUint32At u0 0 uid
              else if domain = DomainGroup then setUint32At u0 0 gid else u0).set
              9 domain) 2) Variant.RFC4122) := by
  rcases hv : newV1 g s t hw hr with ⟨g1, o⟩
  cases o <;> simp [newV2, hv]

theorem newV1_length (g : GenState) (s : Option Nat) (t : Nat)
    (hw hr : Option (List Nat)) (u1 : List Nat)
    (h : (newV1 g s t hw hr).2 = some u1) : 10 ≤ u1.length := by
  rcases hcs : getClockSequence g s t with ⟨g1, o1⟩
  rcases o1 with _ | ⟨ts, cs⟩
  · simp [newV1, hcs] at h
  rcases hhw : getHardwareAddr g1 hw hr with ⟨g2, o2⟩
  rcases o2 with _ | ha
  · simp [newV1, hcs, hhw] at h
  simp only [newV1, hcs, hhw] at h
  simp at h
  rw [← h]
  simp [setVariant, setVersion, putUint32, putUint16]

/-- C1 counterexample: when the clock source is forced backward between
calls, the clock-state protocol returns a strictly smaller timestamp on the
second call, and the leading timestamp bytes of the second `NewV6`/`NewV7`
identifier are strictly below those of the first — refuting that they are
non-decreasing "even if the underlying clock source is forced backward". -/
theorem claim_C1_counterexample :
    (getClockSequence initGen (some 7) 100).2 = some (100, 7) ∧
    (getClockSequence (getClockSequence initGen (some 7) 100).1 none 50).2
      = some (50, 8) ∧
    ¬(100 ≤ 50) ∧
    (newV6 initGen (some 7) (2 ^ 20) (some [1, 2, 3, 4, 5, 6]) none).2
      = some [0, 0, 0, 0, 0, 16, 96, 0, 128, 7, 1, 2, 3, 4, 5, 6] ∧
    (newV6 (newV6 initGen (some 7) (2 ^ 20) (some [1, 2, 3, 4, 5, 6]) none).1
        none (2 ^ 17) none none).2
      = some [0, 0, 0, 0, 0, 2, 96, 0, 128, 8, 1, 2, 3, 4, 5, 6] ∧
    bytesCompare ([0, 0, 0, 0, 0, 2, 96, 0, 128, 8, 1, 2, 3, 4, 5, 6].take 6)
      ([0, 0, 0, 0, 0, 16, 96, 0, 128, 7, 1, 2, 3, 4, 5, 6].take 6) = -1 ∧
    (newV7 initGen 100 (some [9, 9, 9, 9, 9, 9, 9, 9, 9, 9])).2
      = some [0, 0, 0, 0, 0, 100, 121, 9, 137, 9, 9, 9, 9, 9, 9, 9] ∧
    (newV7 initGen 50 (some [9, 9, 9, 9, 9, 9, 9, 9, 9, 9])).2
      = some [0, 0, 0, 0, 0, 50, 121, 9, 137, 9, 9, 9, 9, 9, 9, 9] ∧
    bytesCompare ([0, 0, 0, 0, 0, 50, 121, 9, 137, 9, 9, 9, 9, 9, 9, 9].take 6)
      ([0, 0, 0, 0, 0, 100, 121, 9, 137, 9, 9, 9, 9, 9, 9, 9].take 6) = -1 := by
  decide

/-- C1 (amended): the returned timestamp of the shared clock-state protocol
equals the sampled clock value, so across consecutive calls it is
non-decreasing provided the underlying clock samples are non-decreasing;
under that same proviso the leading timestamp bytes of consecutive
`NewV6`/`NewV7` identifiers are non-decreasing (for v7 with the timestamp
inside its 48-bit range).  Under clock regression only the clock sequence
is bumped; the returned timestamp follows the clock backward. -/
theorem claim_C1 (g : GenState) (s1 s2 : Option Nat) (t1 t2 : Nat)
    (hw1 hr1 hw2 hr2 : Option (List Nat)) (hmono : t1 ≤ t2) (ht2 : t2 < 2 ^ 64) :
    (∀ ts1 cs1 ts2 cs2,
      (getClockSequence g s1 t1).2 = some (ts1, cs1) →
      (getClockSequence (getClockSequence g s1 t1).1 s2 t2).2 = some (ts2, cs2) →
      ts1 ≤ ts2) ∧
    (∀ u1 u2,
      (newV6 g s1 t1 hw1 hr1).2 = some u1 →
      (newV6 (newV6 g s1 t1 hw1 hr1).1 s2 t2 hw2 hr2).2 = some u2 →
      bytesCompare (u1.take 6) (u2.take 6) ≤ 0) ∧
    (∀ bs1 bs2 u1 u2, t2 < 2 ^ 48 →
      (newV7 g t1 (some bs1)).2 = some u1 →
      (newV7 g t2 (some bs2)).2 = some u2 →
      bytesCompare (u1.take 6) (u2.take 6) ≤ 0) := by
  refine ⟨?_, ?_, ?_⟩
  · intro ts1 cs1 ts2 cs2 h1 h2
    rw [getClockSequence_ts g s1 t1 ts1 cs1 h1,
      getClockSequence_ts _ s2 t2 ts2 cs2 h2]
    exact hmono
  · intro u1 u2 h1 h2
    rw [newV6_take6 _ _ _ _ _ _ h1, newV6_take6 _ _ _ _ _ _ h2]
    apply bytesCompare_beBytes_le
    · norm_num
      norm_num at ht2
      omega
    · norm_num
      omega
  · intro bs1 bs2 u1 u2 ht48 h1 h2
    rw [newV7_take6 _ _ _ _ h1, newV7_take6 _ _ _ _ h2,
      putUint48_eq_beBytes, putUint48_eq_beBytes]
    apply bytesCompare_beBytes_le _ _ _ hmono
    norm_num
    norm_num at ht48
    omega

theorem claim_C1_witness :
    (getClockSequence initGen (some 7) 100).2 = some (100, 7) ∧
    (100 : Nat) ≤ 200 ∧
    bytesCompare ([0, 0, 0, 0, 0, 0, 96, 100, 128, 7, 1, 2, 3, 4, 5, 6].take 6)
      ([0, 0, 0, 0, 0, 0, 96, 200, 128, 7, 1, 2, 3, 4, 5, 6].take 6) ≤ 0 := by
  have happ := claim_C1 initGen (some 7) none 100 200 (some [1, 2, 3, 4, 5, 6])
    none none none (by decide) (by decide)
  refine ⟨by decide, ?_, ?_⟩
  · exact happ.1 100 7 200 7 (by decide) (by decide)
  · exact happ.2.1 [0, 0, 0, 0, 0, 0, 96, 100, 128, 7, 1, 2, 3, 4, 5, 6]
      [0, 0, 0, 0, 0, 0, 96, 200, 128, 7, 1, 2, 3, 4, 5, 6] (by decide) (by decide)

/-- C2 counterexample: after a failed clock-sequence seed read the first
call does return `Nil` with an error, but the `sync.Once` latch is consumed
rather than retried — the next call succeeds and observes the
zero-initialized clock sequence (returning sequence 0, ignoring the now
working randomness source which would have seeded 7, as a fresh generator
shows). -/
theorem claim_C2_counterexample :
    (newV1 initGen none 100 (some [1, 2, 3, 4, 5, 6]) none).2 = none ∧
    (getClockSequence (newV1 initGen none 100 (some [1, 2, 3, 4, 5, 6]) none).1
        (some 7) 200).2 = some (200, 0) ∧
    (getClockSequence initGen (some 7) 200).2 = some (200, 7) := by
  decide

/-- C2 (amended): a randomness failure during lazy latch initialization
makes the failing `NewV1`/`NewV4` call return `Nil` with an error, but the
latch is consumed, not retried: the next call succeeds using the
zero-value clock sequence (the fresh seed is ignored), and after a failed
node-identifier initialization later calls observe the zero-value
hardware address without consulting the address function again. -/
theorem claim_C2 (g : GenState) (t t' s2 : Nat) (s' : Option Nat)
    (hw hr : Option (List Nat)) (hfresh : g.clockSeqInit = false)
    (hwfresh : g.hwInit = false) :
    ((newV1 g none t hw hr).2 = none ∧
      ((newV1 g none t hw hr).1).clockSeqInit = true ∧
      (getClockSequence (newV1 g none t hw hr).1 s' t').2
        = some (t', if t' ≤ g.lastTime then (g.clockSequence + 1) % 65536
            else g.clockSequence)) ∧
    ((newV4 g none).2 = none) ∧
    ((newV1 g (some s2) t none none).2 = none ∧
      ((newV1 g (some s2) t none none).1).hwInit = true ∧
      (getHardwareAddr (newV1 g (some s2) t none none).1 none none).2
        = some g.hardwareAddr) := by
  have hcs : getClockSequence g none t = ({ g with clockSeqInit := true }, none) := by
    simp [getClockSequence, hfresh]
  have hv1 : newV1 g none t hw hr = ({ g with clockSeqInit := true }, none) := by
    simp [newV1, hcs]
  refine ⟨⟨?_, ?_, ?_⟩, rfl, ?_⟩
  · rw [hv1]
  · rw [hv1]
  · rw [hv1]
    simp [getClockSequence]
  · rcases hpair : getClockSequence g (some s2) t with ⟨g1, o⟩
    have hg1 : g1 = (getClockSequence g (some s2) t).1 := by rw [hpair]
    have hoo : o = (getClockSequence g (some s2) t).2 := by rw [hpair]
    have h1 : g1.hwInit = false := by
      rw [hg1]
      simp [getClockSequence, hfresh, hwfresh]
    have h2 : g1.hardwareAddr = g.hardwareAddr := by
      rw [hg1]
      simp [getClockSequence, hfresh]
    have h3 : ∃ p, o = some p := by
      rw [hoo]
      simp [getClockSequence, hfresh]
    obtain ⟨⟨ts, cs⟩, ho⟩ := h3
    subst ho
    have hhw : getHardwareAddr g1 none none = ({ g1 with hwInit := true }, none) := by
      simp [getHardwareAddr, h1]
    have hv : newV1 g (some s2) t none none = ({ g1 with hwInit := true }, none) := by
      simp [newV1, hpair, hhw]
    refine ⟨?_, ?_, ?_⟩
    · rw [hv]
    · rw [hv]
    · rw [hv]
      simp [getHardwareAddr, h2]

theorem claim_C2_witness :
    (newV1 initGen none 100 (some [1, 2, 3, 4, 5, 6]) none).2 = none ∧
    (getClockSequence (newV1 initGen none 100 (some [1, 2, 3, 4, 5, 6]) none).1
        (some 7) 200).2 = some (200, 0) ∧
    (newV4 initGen none).2 = none ∧
    (newV1 initGen (some 7) 100 none none).2 = none ∧
    (getHardwareAddr (newV1 initGen (some 7) 100 none none).1 none none).2
      = some (List.replicate 6 0) := by
  have happ := claim_C2 initGen 100 200 7 (some 7) (some [1, 2, 3, 4, 5, 6])
    none rfl rfl
  exact ⟨happ.1.1, happ.1.2.2, happ.2.1, happ.2.2.1, happ.2.2.2.2⟩

/-- C7 counterexample: the clock sequence is a 16-bit counter — at 65535 a
bump wraps to 0, so on a call whose sampled timestamp is not strictly
greater than the previously returned one the clock sequence does not
strictly increase. -/
theorem claim_C7_counterexample :
    (getClockSequence ⟨true, 65534, 200, false, List.replicate 6 0⟩ none 100).2
      = some (100, 65535) ∧
    (getClockSequence
        (getClockSequence ⟨true, 65534, 200, false, List.replicate 6 0⟩ none 100).1
        none 100).2 = some (100, 0) ∧
    ¬(65535 < 0) := by
  decide

/-- C7 (amended): on a call with the clock-sequence latch initialized,
whenever the sampled timestamp is not strictly greater than `lastTime` the
clock sequence is incremented modulo 2^16 — a strict increase except when
wrapping from 65535 to 0 — and it is left unchanged otherwise. -/
theorem claim_C7 (g : GenState) (s : Option Nat) (t : Nat)
    (hinit : g.clockSeqInit = true) :
    (t ≤ g.lastTime →
      (getClockSequence g s t).2 = some (t, (g.clockSequence + 1) % 65536) ∧
      (g.clockSequence < 65535 →
        g.clockSequence < (g.clockSequence + 1) % 65536)) ∧
    (g.lastTime < t →
      (getClockSequence g s t).2 = some (t, g.clockSequence)) := by
  constructor
  · intro hle
    refine ⟨?_, ?_⟩
    · simp [getClockSequence, hinit, hle]
    · intro hlt
      rw [Nat.mod_eq_of_lt (by omega)]
      omega
  · intro hgt
    simp [getClockSequence, hinit, Nat.not_le.mpr hgt]

theorem claim_C7_witness :
    (getClockSequence ⟨true, 5, 100, false, List.replicate 6 0⟩ none 100).2
      = some (100, 6) ∧
    (5 : Nat) < 6 ∧
    (getClockSequence ⟨true, 5, 100, false, List.replicate 6 0⟩ none 150).2
      = some (150, 5) := by
  refine ⟨?_, ?_, ?_⟩
  · exact ((claim_C7 ⟨true, 5, 100, false, List.replicate 6 0⟩ none 100 rfl).1
      (by decide)).1
  · exact ((claim_C7 ⟨true, 5, 100, false, List.replicate 6 0⟩ none 100 rfl).1
      (by decide)).2 (by decide)
  · exact (claim_C7 ⟨true, 5, 100, false, List.replicate 6 0⟩ none 150 rfl).2
      (by decide)

/-- C8: every v7 identifier carries the 48-bit millisecond timestamp
big-endian in bytes 0–5; two v7 identifiers with millisecond-distinct
timestamps compare in timestamp order on their first 6 bytes, while equal
timestamps give equal 6-byte prefixes (so ordering within the same
millisecond is left to the random tail). -/
theorem claim_C8 (g g' : GenState) (t1 t2 : Nat) (bs1 bs2 u1 u2 : List Nat)
    (h1 : (newV7 g t1 (some bs1)).2 = some u1)
    (h2 : (newV7 g' t2 (some bs2)).2 = some u2)
    (hb2 : t2 < 2 ^ 48) :
    u1.take 6 = putUint48 t1 ∧
    (t1 < t2 → bytesCompare (u1.take 6) (u2.take 6) = -1) ∧
    (t1 = t2 → bytesCompare (u1.take 6) (u2.take 6) = 0) := by
  have e1 := newV7_take6 g t1 bs1 u1 h1
  have e2 := newV7_take6 g' t2 bs2 u2 h2
  refine ⟨e1, ?_, ?_⟩
  · intro hlt
    rw [e1, e2, putUint48_eq_beBytes, putUint48_eq_beBytes]
    exact bytesCompare_beBytes_lt 6 t1 t2 hlt
      (by rw [show 8 * 6 = 48 from rfl]; exact hb2)
  · intro heq
    rw [e1, e2, heq, bytesCompare_self]

theorem claim_C8_witness :
    [0, 0, 0, 0, 0, 1, 121, 9, 137, 9, 9, 9, 9, 9, 9, 9].take 6 = putUint48 1 ∧
    bytesCompare ([0, 0, 0, 0, 0, 1, 121, 9, 137, 9, 9, 9, 9, 9, 9, 9].take 6)
      ([0, 0, 0, 0, 0, 2, 121, 9, 137, 9, 9, 9, 9, 9, 9, 9].take 6) = -1 := by
  have happ := claim_C8 initGen initGen 1 2 [9, 9, 9, 9, 9, 9, 9, 9, 9, 9]
    [9, 9, 9, 9, 9, 9, 9, 9, 9, 9] [0, 0, 0, 0, 0, 1, 121, 9, 137, 9, 9, 9, 9, 9, 9, 9]
    [0, 0, 0, 0, 0, 2, 121, 9, 137, 9, 9, 9, 9, 9, 9, 9] (by decide) (by decide)
    (by decide)
  exact ⟨happ.1, happ.2.1 (by decide)⟩

/-- C9: every `NewV2` identifier has byte 9 equal to the supplied domain,
version 2 and the RFC4122 variant; for any domain outside the person and
group selectors the id-substitution over bytes 0–3 is a no-op, leaving
those bytes equal to the underlying v1 identifier's. -/
theorem claim_C9 (g : GenState) (domain uid gid : Nat) (s : Option Nat) (t : Nat)
    (hw hr : Option (List Nat)) (u : List Nat)
    (h : (newV2 g domain uid gid s t hw hr).2 = some u) :
    u.getD 9 0 = domain ∧ version u = 2 ∧ variant u = Variant.RFC4122 ∧
    (domain ≠ DomainPerson → domain ≠ DomainGroup →
      ∀ u1, (newV1 g s t hw hr).2 = some u1 → u.take 4 = u1.take 4) := by
  rw [newV2_eq] at h
  rcases hv : (newV1 g s t hw hr).2 with _ | u1
  · rw [hv] at h; simp at h
  rw [hv] at h
  simp only [Option.map_some'] at h
  rw [Option.some.injEq] at h
  subst h
  have hlen1 : 10 ≤ u1.length := newV1_length g s t hw hr u1 hv
  have hlenIf : (if domain = DomainPerson then setUint32At u1 0 uid
      else if domain = DomainGroup then setUint32At u1 0 gid else u1).length
      = u1.length := by
    split_ifs <;> simp [setUint32At]
  refine ⟨?_, ?_, ?_, ?_⟩
  · simp only [setVariant, setVersion]
    rw [getD_set_other _ 8 9 _ _ (by omega), getD_set_other _ 6 9 _ _ (by omega),
      getD_set_same _ 9 _ _ (by rw [hlenIf]; omega)]
  · exact version_finalize _ 2 (by norm_num)
      (by simp only [List.length_set, hlenIf]; omega)
  · exact variant_finalize _ 2
      (by simp only [List.length_set, hlenIf]; omega)
  · intro hnp hng u1' hv1'
    rw [Option.some.injEq] at hv1'
    subst hv1'
    simp only [setVariant, setVersion]
    rw [take_set_of_le _ 8 4 _ (by omega), take_set_of_le _ 6 4 _ (by omega),
      take_set_of_le _ 9 4 _ (by omega), if_neg hnp, if_neg hng]

theorem claim_C9_witness :
    (newV2 initGen 5 1000 2000 (some 7) 100 (some [1, 2, 3, 4, 5, 6]) none).2
      = some [0, 0, 0, 100, 0, 0, 32, 0, 128, 5, 1, 2, 3, 4, 5, 6] ∧
    [0, 0, 0, 100, 0, 0, 32, 0, 128, 5, 1, 2, 3, 4, 5, 6].getD 9 0 = 5 ∧
    version [0, 0, 0, 100, 0, 0, 32, 0, 128, 5, 1, 2, 3, 4, 5, 6] = 2 ∧
    variant [0, 0, 0, 100, 0, 0, 32, 0, 128, 5, 1, 2, 3, 4, 5, 6]
      = Variant.RFC4122 := by
  have happ := claim_C9 initGen 5 1000 2000 (some 7) 100 (some [1, 2, 3, 4, 5, 6])
    none [0, 0, 0, 100, 0, 0, 32, 0, 128, 5, 1, 2, 3, 4, 5, 6] (by decide)
  exact ⟨by decide, happ.1, happ.2.1, happ.2.2.1⟩

end GoUuid
